import Mathlib

set_option maxHeartbeats 1000000

/-!
Shallow embedding of the CPIDebugLocal transport codec.

The repository has two codec variants:
* a ZIP variant (`encodeContivaData` / `decodeContivaData` in
  `contiva-encoder.js`): JSON → ZIP archive → gzip → standard base64 (padded)
  → percent-encoding, and the reverse;
* a deflate variant (`decodeGroovyString` in the JS server and
  `decodeGroovyData` in the Groovy server): URL-safe base64 → standard
  alphabet → padding → base64 decode → raw inflate → UTF-8 → JSON.

Bytes are modelled as `Nat` (with explicit `< 256` bounds where they matter)
and wire strings as `List Char`.  The external library primitives the code
calls into (the `archiver` ZIP writer, `zlib` gzip/gunzip/inflateRaw, the JSON
serializer/parser) are taken as function parameters, constrained only by the
hypotheses each theorem states; the percent-encoding, base64, padding and
alphabet-normalization steps — the algorithmic content of the codec — are
implemented concretely below, translated from the source.
-/

/-- The logical document exchanged with the remote IDE (spec §3), as built by
the source (`contivaExample` in `contiva-encoder.js`): four string fields and
two string→string mappings, the latter modelled as association lists. -/
structure DebugPayload where
  currentSessionType : String
  scriptInput : String
  script : String
  functionName : String
  headers : List (String × String)
  properties : List (String × String)
  deriving DecidableEq, Repr

/-- The concrete example payload hard-coded in `contiva-encoder.js`
(lines 172–185). -/
def contivaExample : DebugPayload :=
  { currentSessionType := "groovy"
    scriptInput := "\x7b \"test\": \"testval3\" \x7d"
    script := "import com.sap.gateway.ip.core.customdev.util.Message;\n\ndef Message processData(Message message) \x7b\n    return message;\n\x7d"
    functionName := "processData"
    headers := [("SAP_MessageProcessingLogID", "AGlnwRPCOT1y6HLEfkmHVDXWnnu0"),
                ("SAP_TRACE_HEADER_1768407316206_MessageType", "STEP")]
    properties := [("AnotherProp", "conf1"), ("TestingProp", "conf2")] }

/-- Sextet value of a character of the standard base64 alphabet
(`A`–`Z` = 0–25, `a`–`z` = 26–51, `0`–`9` = 52–61, `+` = 62, `/` = 63);
`none` for every other character.  This is the character table shared by the
strict (`java.util.Base64`) and lenient (Node `Buffer.from`) decoders. -/
def b64Val (c : Char) : Option Nat :=
  if 65 ≤ c.toNat ∧ c.toNat ≤ 90 then some (c.toNat - 65)
  else if 97 ≤ c.toNat ∧ c.toNat ≤ 122 then some (c.toNat - 97 + 26)
  else if 48 ≤ c.toNat ∧ c.toNat ≤ 57 then some (c.toNat - 48 + 52)
  else if c.toNat = 43 then some 62
  else if c.toNat = 47 then some 63
  else none

/-- Character of the standard base64 alphabet for a sextet value `< 64`. -/
def b64Char (n : Nat) : Char :=
  if n < 26 then Char.ofNat (65 + n)
  else if n < 52 then Char.ofNat (97 + (n - 26))
  else if n < 62 then Char.ofNat (48 + (n - 52))
  else if n = 62 then '+'
  else '/'

/-- Standard base64 encoding with `=` padding, as produced by
`Buffer.toString('base64')` in step 4 of `encodeContivaData`
(`contiva-encoder.js` line 58): three input bytes become four alphabet
characters; a trailing group of two or one bytes is padded with one or two
`=` characters. -/
def base64Encode : List Nat → List Char
  | a :: b :: c :: rest =>
    b64Char (a / 4) :: b64Char (a % 4 * 16 + b / 16) ::
      b64Char (b % 16 * 4 + c / 64) :: b64Char (c % 64) :: base64Encode rest
  | [a, b] => [b64Char (a / 4), b64Char (a % 4 * 16 + b / 16), b64Char (b % 16 * 4), '=']
  | [a] => [b64Char (a / 4), b64Char (a % 4 * 16), '=', '=']
  | [] => []

/-- Strict base64 decoding, modelling `java.util.Base64.getDecoder().decode`
as called by `decodeGroovyData` (Groovy server, line 151): the input must
consist of four-character groups of alphabet characters, with `=` allowed
only as the final one or two characters; anything else is rejected.  (The
Groovy decoder always pads its input to a multiple of four characters before
calling this, so only such lengths arise; other lengths are rejected here.) -/
def b64DecodeStrict : List Char → Option (List Nat)
  | c1 :: c2 :: c3 :: c4 :: rest =>
    match b64Val c1, b64Val c2 with
    | some s1, some s2 =>
      if c3 = '=' then
        if c4 = '=' ∧ rest = [] then some [s1 * 4 + s2 / 16] else none
      else
        match b64Val c3 with
        | some s3 =>
          if c4 = '=' then
            if rest = [] then some [s1 * 4 + s2 / 16, s2 % 16 * 16 + s3 / 4] else none
          else
            match b64Val c4 with
            | some s4 =>
              match b64DecodeStrict rest with
              | some bs =>
                some ((s1 * 4 + s2 / 16) :: (s2 % 16 * 16 + s3 / 4) :: (s3 % 4 * 64 + s4) :: bs)
              | none => none
            | none => none
        | none => none
    | _, _ => none
  | [] => some []
  | _ => none

/-- Reassembles a sextet stream into bytes: each complete group of four
sextets yields three bytes; a trailing group of three or two sextets yields
two bytes or one byte; a single leftover sextet yields nothing. -/
def sextetsToBytes : List Nat → List Nat
  | s1 :: s2 :: s3 :: s4 :: rest =>
    (s1 * 4 + s2 / 16) :: (s2 % 16 * 16 + s3 / 4) :: (s3 % 4 * 64 + s4) :: sextetsToBytes rest
  | [s1, s2, s3] => [s1 * 4 + s2 / 16, s2 % 16 * 16 + s3 / 4]
  | [s1, s2] => [s1 * 4 + s2 / 16]
  | _ => []

/-- Lenient base64 decoding, modelling Node's `Buffer.from(s, 'base64')` as
called by `decodeGroovyString` (JS server, line 103) and `decodeContivaData`
(`contiva-encoder.js` line 149): characters outside the base64 alphabet
(including `=`) are ignored rather than rejected, and leftover sextets that
do not complete a byte are dropped.  It never fails.  This is faithful to
Node for inputs whose `=` characters occur only as trailing padding, which
is where the decoders in this repository place them. -/
def base64DecodeNode (s : List Char) : List Nat :=
  sextetsToBytes (s.filterMap b64Val)

/-- Alphabet normalization shared by all three decoders
(`decodeGroovyString` lines 92–94, `decodeGroovyData` lines 142–144,
`decodeContivaData` lines 141–143): first replace every `-` by `+`, then
every `_` by `/`, exactly as the two sequential `replace` calls do. -/
def restoreStandardBase64 (s : List Char) : List Char :=
  (s.map fun c => if c = '-' then '+' else c).map fun c => if c = '_' then '/' else c

/-- Padding count for a string of length `len`, as computed by
`decodeGroovyString` (line 98), `decodeGroovyData` (line 147) and
`encodeContivaData` (line 62): `(4 - (len % 4)) % 4`. -/
def paddingNeeded (len : Nat) : Nat :=
  (4 - len % 4) % 4

/-- Appends the computed number of `=` padding characters, as done by
`decodeGroovyString` (line 99) and `decodeGroovyData` (line 148). -/
def addPadding (s : List Char) : List Char :=
  s ++ List.replicate (paddingNeeded s.length) '='

/-- Hexadecimal digit character (uppercase, as emitted by
`encodeURIComponent`) for a value `< 16`. -/
def hexDigit (n : Nat) : Char :=
  if n < 10 then Char.ofNat (48 + n) else Char.ofNat (55 + n)

/-- Value of a hexadecimal digit character (either case accepted, as by
`decodeURIComponent`); `none` for non-hex characters. -/
def hexVal (c : Char) : Option Nat :=
  if 48 ≤ c.toNat ∧ c.toNat ≤ 57 then some (c.toNat - 48)
  else if 65 ≤ c.toNat ∧ c.toNat ≤ 70 then some (c.toNat - 55)
  else if 97 ≤ c.toNat ∧ c.toNat ≤ 102 then some (c.toNat - 87)
  else none

/-- The characters `encodeURIComponent` leaves unescaped:
`A`–`Z`, `a`–`z`, `0`–`9`, `-`, `_`, `.`, `!`, `~`, `*`, `'`, `(`, `)`
(written here by code point). -/
def isUriUnreserved (c : Char) : Bool :=
  (65 ≤ c.toNat && c.toNat ≤ 90) || (97 ≤ c.toNat && c.toNat ≤ 122) ||
  (48 ≤ c.toNat && c.toNat ≤ 57) || c.toNat == 45 || c.toNat == 95 ||
  c.toNat == 46 || c.toNat == 33 || c.toNat == 126 || c.toNat == 42 ||
  c.toNat == 39 || c.toNat == 40 || c.toNat == 41

/-- Percent-encoding of one character: unreserved characters pass through,
every other character becomes `%` followed by two uppercase hex digits of
its code point.  Models `encodeURIComponent` (`contiva-encoder.js` line 70)
on the ASCII range, which covers every character the encoder emits (base64
text). -/
def percentEncodeChar (c : Char) : List Char :=
  if isUriUnreserved c then [c]
  else ['%', hexDigit (c.toNat / 16), hexDigit (c.toNat % 16)]

/-- Percent-encoding of a string, character by character. -/
def percentEncode : List Char → List Char
  | [] => []
  | c :: rest => percentEncodeChar c ++ percentEncode rest

/-- Percent-decoding, modelling `decodeURIComponent`
(`contiva-encoder.js` line 137) on the ASCII range: `%` followed by two hex
digits denoting a code point `< 128` decodes to that character; a malformed
or non-ASCII escape is an error (`decodeURIComponent` throws `URIError`);
every other character passes through.  The encoder in this repository only
produces ASCII escapes, so this covers the codec's domain. -/
def percentDecode : List Char → Option (List Char)
  | [] => some []
  | c :: rest =>
    if c = '%' then
      match rest with
      | h1 :: h2 :: rest2 =>
        match hexVal h1, hexVal h2 with
        | some v1, some v2 =>
          if v1 * 16 + v2 < 128 then
            match percentDecode rest2 with
            | some tail => some (Char.ofNat (v1 * 16 + v2) :: tail)
            | none => none
          else none
        | _, _ => none
      | _ => none
    else
      match percentDecode rest with
      | some tail => some (c :: tail)
      | none => none

/-- The archive entry timestamp used by `encodeContivaData`: the source pins
it to the epoch (`date: new Date(0)`, lines 37 and 88) regardless of the
wall-clock time `now` at which the encoder runs. -/
def archiveEntryDate (_now : Nat) : Nat := 0

/-- The gzip container modification-time field used by `encodeContivaData`:
the source pins it to zero (`mtime: 0`, line 52) regardless of the
wall-clock time `now`. -/
def gzipMtime (_now : Nat) : Nat := 0

/-- The ZIP-variant encoder `encodeContivaData` (`contiva-encoder.js`
lines 26–95): serialize to JSON, build a single-entry ZIP archive (entry
timestamp pinned by `archiveEntryDate`), gzip it (mtime pinned by
`gzipMtime`), base64-encode with the standard alphabet, pad to a multiple of
four characters, and percent-encode the result.  The JSON serializer, the
ZIP archive writer (the `archiver` library at compression level 9) and the
gzip compressor (`zlib.gzipSync`) are library primitives, passed as the
parameters `stringify`, `zipArchive` and `gzipC`; `now` is the wall-clock
time of the invocation. -/
def encodeContivaData (stringify : DebugPayload → List Nat)
    (zipArchive : List Nat → Nat → List Nat) (gzipC : List Nat → Nat → List Nat)
    (now : Nat) (contivaData : DebugPayload) : List Char :=
  let jsonString := stringify contivaData
  let zipBuffer := zipArchive jsonString (archiveEntryDate now)
  let compressed := gzipC zipBuffer (gzipMtime now)
  let base64 := base64Encode compressed
  let padded := base64 ++ List.replicate (paddingNeeded base64.length) '='
  percentEncode padded

/-- The ZIP-variant decoder `decodeContivaData` (`contiva-encoder.js`
lines 135–161): percent-decode, restore the standard alphabet (no padding is
added — the source notes padding is already present), base64-decode with
Node's lenient decoder, and gunzip.  The gunzip primitive
(`zlib.gunzipSync`, which throws on a corrupt stream — modelled by
`Option`) is the parameter `gunzip`.  The result is the raw archive byte
stream; the archive is not parsed. -/
def decodeContivaData (gunzip : List Nat → Option (List Nat)) (s : List Char) :
    Option (List Nat) :=
  match percentDecode s with
  | none => none
  | some decodedUrl => gunzip (base64DecodeNode (restoreStandardBase64 decodedUrl))

/-- The stage at which a decode can fail (spec §7: `DecodeError{stage}`,
plus the UTF-8/JSON stage, which the sources reach through `JSON.parse` /
`JsonSlurper`). -/
inductive DecodeStage where
  | percent
  | base64
  | inflate
  | parse
  deriving DecidableEq, Repr

/-- Byte-level pipeline of the JS deflate-variant decoder
`decodeGroovyString` (JS server, lines 88–108): restore the standard
alphabet, add padding, base64-decode with Node's lenient decoder (which
never fails), then raw-inflate.  The raw-inflate primitive
(`zlib.inflateRawSync`, which throws on corrupt data — modelled by
`Option`) is the parameter `infl`.  There is no percent-decoding step. -/
def decodeGroovyStringToBytes (infl : List Nat → Option (List Nat)) (s : List Char) :
    Except DecodeStage (List Nat) :=
  let standardBase64 := addPadding (restoreStandardBase64 s)
  let buffer := base64DecodeNode standardBase64
  match infl buffer with
  | none => .error .inflate
  | some decompressed => .ok decompressed

/-- The full JS deflate-variant decoder `decodeGroovyString` (JS server,
lines 88–119): the byte pipeline followed by UTF-8 conversion and
`JSON.parse`, the latter two modelled together by the library parameter
`parse` (UTF-8 conversion via `toString('utf-8')` never fails; `JSON.parse`
throwing is modelled by `none`). -/
def decodeGroovyStringStaged (infl : List Nat → Option (List Nat))
    (parse : List Nat → Option DebugPayload) (s : List Char) :
    Except DecodeStage DebugPayload :=
  match decodeGroovyStringToBytes infl s with
  | .error e => .error e
  | .ok decompressed =>
    match parse decompressed with
    | none => .error .parse
    | some p => .ok p

/-- Byte-level pipeline of the Groovy deflate-variant decoder
`decodeGroovyData` (Groovy server, lines 140–161): restore the standard
alphabet, add padding, base64-decode strictly (`java.util.Base64`, which
throws on invalid input), raw-inflate into a fixed 10240-byte buffer —
modelled by truncating the inflater's output to its first 10240 bytes, as
`new byte[10240]` with a single `inflate` call does.  There is no
percent-decoding step and no size-ceiling error. -/
def decodeGroovyDataToBytes (infl : List Nat → Option (List Nat)) (s : List Char) :
    Except DecodeStage (List Nat) :=
  let standardBase64 := addPadding (restoreStandardBase64 s)
  match b64DecodeStrict standardBase64 with
  | none => .error .base64
  | some buffer =>
    match infl buffer with
    | none => .error .inflate
    | some decompressed => .ok (decompressed.take 10240)

/-- The full Groovy deflate-variant decoder `decodeGroovyData` (Groovy
server, lines 140–168): the byte pipeline followed by UTF-8 conversion and
`JsonSlurper.parseText`, modelled together by the library parameter
`parse`. -/
def decodeGroovyDataStaged (infl : List Nat → Option (List Nat))
    (parse : List Nat → Option DebugPayload) (s : List Char) :
    Except DecodeStage DebugPayload :=
  match decodeGroovyDataToBytes infl s with
  | .error e => .error e
  | .ok decompressed =>
    match parse decompressed with
    | none => .error .parse
    | some p => .ok p

/-- Modelled from the spec: the deflate-variant decode pipeline in the step
order §4.2 prescribes — percent-decode first (step 1), then alphabet
normalization, padding, base64 decoding and raw inflation (steps 2–5) —
with each failing stage reported, for comparison with the decoders the
sources actually implement (which have no percent-decoding step). -/
def decodeGroovySpecOrdered (infl : List Nat → Option (List Nat)) (s : List Char) :
    Except DecodeStage (List Nat) :=
  match percentDecode s with
  | none => .error .percent
  | some decoded =>
    match b64DecodeStrict (addPadding (restoreStandardBase64 decoded)) with
    | none => .error .base64
    | some buffer =>
      match infl buffer with
      | none => .error .inflate
      | some decompressed => .ok decompressed

/-- Modelled from the spec: the URL-safe rendering of a standard-alphabet
base64 text (§4.2 encode direction: replace `+` by `-` and `/` by `_`),
used to state alphabet tolerance. -/
def toUrlSafeBase64 (s : List Char) : List Char :=
  (s.map fun c => if c = '+' then '-' else c).map fun c => if c = '/' then '_' else c

/-- The character class the spec's concrete scenario (§8) allows in the
encoded transport string: `A`–`Z`, `a`–`z`, `0`–`9`, `%`, `.`, `-`, `_`,
`~`. -/
def claimC4Allowed (c : Char) : Bool :=
  (65 ≤ c.toNat && c.toNat ≤ 90) || (97 ≤ c.toNat && c.toNat ≤ 122) ||
  (48 ≤ c.toNat && c.toNat ≤ 57) || c.toNat == 37 || c.toNat == 46 ||
  c.toNat == 45 || c.toNat == 95 || c.toNat == 126

/-- An inflate primitive that reports failure on every input, as
`zlib.inflateRawSync` does on an empty or corrupt buffer. -/
def inflNone : List Nat → Option (List Nat) := fun _ => none

/-- An inflate primitive that returns its input unchanged, usable as an
arbitrary instantiation of the abstract raw-inflate parameter. -/
def inflId : List Nat → Option (List Nat) := fun b => some b

/-- A JSON-parse primitive that fails on every input. -/
def parseNone : List Nat → Option DebugPayload := fun _ => none

/-- The payload with all fields empty. -/
def emptyPayload : DebugPayload :=
  { currentSessionType := "", scriptInput := "", script := "", functionName := "",
    headers := [], properties := [] }

/-- A raw-deflate stream consisting of a single stored (uncompressed) block
holding the two bytes `7B 7D` (the text of the empty JSON object): block
header `01` (final block, stored), `LEN = 0002`, `NLEN = FFFD`, then the two
literal bytes.  `zlib.inflateRaw` inflates it to exactly those two bytes. -/
def storedDeflateBraces : List Nat := [1, 2, 0, 253, 255, 123, 125]

/-- The two bytes of the empty JSON object text. -/
def bracesBytes : List Nat := [123, 125]

/-- An inflate primitive agreeing with `zlib.inflateRaw` on
`storedDeflateBraces` (and failing elsewhere). -/
def inflC10 : List Nat → Option (List Nat) :=
  fun b => if b = storedDeflateBraces then some bracesBytes else none

/-- A JSON-parse primitive agreeing with `JSON.parse` on the empty-object
text (and failing elsewhere). -/
def parseC10 : List Nat → Option DebugPayload :=
  fun b => if b = bracesBytes then some emptyPayload else none

/-- A transport string whose normalized form is invalid strict base64 (it
contains `$` characters) but whose base64-alphabet characters spell
`AQIA/f97fQ==`, the standard base64 encoding of `storedDeflateBraces`. -/
def c10input : List Char := "$AQIA/f97fQ==$$$".toList

/-- A percent-encoded input (`%41%41` percent-decodes to `AA`) used to
compare the implemented decoders with the spec's percent-decode-first
pipeline. -/
def c5input : List Char := "%41%41".toList

/-- A transport string decoding (strictly) to the three zero bytes; used to
exercise the Groovy decoder's fixed-buffer truncation. -/
def c3input : List Char := "AAAA".toList

/-- An inflate primitive whose output on `[0, 0, 0]` is 10241 bytes long —
one byte more than the Groovy decoder's fixed 10240-byte buffer. -/
def inflBig : List Nat → Option (List Nat) :=
  fun b => if b = [0, 0, 0] then some (List.replicate 10241 48) else none

/-- A JSON-parse primitive that succeeds exactly on the first 10240 bytes of
`inflBig`'s output. -/
def parseTrunc : List Nat → Option DebugPayload :=
  fun b => if b = List.replicate 10240 48 then some emptyPayload else none

/-- Characters that can occur in the padded standard base64 text produced by
`base64Encode`: alphabet characters and the padding character. -/
def b64Shape (c : Char) : Prop :=
  (∃ n, n < 64 ∧ c = b64Char n) ∨ c = '='

/-! ### Facts about the base64 character table -/

theorem b64Val_b64Char : ∀ n, n < 64 → b64Val (b64Char n) = some n := by decide

theorem b64Char_ne_pad : ∀ n, n < 64 → b64Char n ≠ '=' := by decide

theorem b64Char_ne_dash : ∀ n, n < 64 → b64Char n ≠ '-' := by decide

theorem b64Char_ne_underscore : ∀ n, n < 64 → b64Char n ≠ '_' := by decide

theorem b64Val_pad : b64Val '=' = none := by decide

/-! ### The base64 encoder's output: shape and length -/

theorem base64Encode_shape : ∀ bs : List Nat, (∀ y ∈ bs, y < 256) →
    ∀ c ∈ base64Encode bs, b64Shape c
  | [], _ => by simp [base64Encode]
  | [a], h => by
    have ha : a < 256 := h a (by simp)
    intro c hc
    simp only [base64Encode, List.mem_cons, List.not_mem_nil, or_false] at hc
    rcases hc with rfl | rfl | rfl | rfl
    · exact Or.inl ⟨a / 4, by omega, rfl⟩
    · exact Or.inl ⟨a % 4 * 16, by omega, rfl⟩
    · exact Or.inr rfl
    · exact Or.inr rfl
  | [a, b], h => by
    have ha : a < 256 := h a (by simp)
    have hb : b < 256 := h b (by simp)
    intro c hc
    simp only [base64Encode, List.mem_cons, List.not_mem_nil, or_false] at hc
    rcases hc with rfl | rfl | rfl | rfl
    · exact Or.inl ⟨a / 4, by omega, rfl⟩
    · exact Or.inl ⟨a % 4 * 16 + b / 16, by omega, rfl⟩
    · exact Or.inl ⟨b % 16 * 4, by omega, rfl⟩
    · exact Or.inr rfl
  | a :: b :: c :: rest, h => by
    have ha : a < 256 := h a (by simp)
    have hb : b < 256 := h b (by simp)
    have hc' : c < 256 := h c (by simp)
    have ih := base64Encode_shape rest (fun y hy => h y (by simp [hy]))
    intro d hd
    simp only [base64Encode, List.mem_cons] at hd
    rcases hd with rfl | rfl | rfl | rfl | hd
    · exact Or.inl ⟨a / 4, by omega, rfl⟩
    · exact Or.inl ⟨a % 4 * 16 + b / 16, by omega, rfl⟩
    · exact Or.inl ⟨b % 16 * 4 + c / 64, by omega, rfl⟩
    · exact Or.inl ⟨c % 64, by omega, rfl⟩
    · exact ih d hd

theorem base64Encode_length : ∀ bs : List Nat, (base64Encode bs).length % 4 = 0
  | [] => by simp [base64Encode]
  | [a] => by simp [base64Encode]
  | [a, b] => by simp [base64Encode]
  | a :: b :: c :: rest => by
    have ih := base64Encode_length rest
    simp only [base64Encode, List.length_cons]
    omega

/-! ### Round trip: strict decoding inverts the encoder -/

theorem b64DecodeStrict_encode : ∀ bs : List Nat, (∀ y ∈ bs, y < 256) →
    b64DecodeStrict (base64Encode bs) = some bs
  | [], _ => by simp [base64Encode, b64DecodeStrict]
  | [a], h => by
    have ha : a < 256 := h a (by simp)
    have h1 : a / 4 < 64 := by omega
    have h2 : a % 4 * 16 < 64 := by omega
    simp only [base64Encode, b64DecodeStrict, b64Val_b64Char _ h1, b64Val_b64Char _ h2]
    simp
    omega
  | [a, b], h => by
    have ha : a < 256 := h a (by simp)
    have hb : b < 256 := h b (by simp)
    have h1 : a / 4 < 64 := by omega
    have h2 : a % 4 * 16 + b / 16 < 64 := by omega
    have h3 : b % 16 * 4 < 64 := by omega
    simp only [base64Encode, b64DecodeStrict, b64Val_b64Char _ h1, b64Val_b64Char _ h2,
      b64Val_b64Char _ h3, if_neg (b64Char_ne_pad _ h3)]
    simp
    omega
  | a :: b :: c :: rest, h => by
    have ha : a < 256 := h a (by simp)
    have hb : b < 256 := h b (by simp)
    have hc : c < 256 := h c (by simp)
    have ih := b64DecodeStrict_encode rest (fun y hy => h y (by simp [hy]))
    have h1 : a / 4 < 64 := by omega
    have h2 : a % 4 * 16 + b / 16 < 64 := by omega
    have h3 : b % 16 * 4 + c / 64 < 64 := by omega
    have h4 : c % 64 < 64 := by omega
    simp only [base64Encode, b64DecodeStrict, b64Val_b64Char _ h1, b64Val_b64Char _ h2,
      b64Val_b64Char _ h3, b64Val_b64Char _ h4, if_neg (b64Char_ne_pad _ h3),
      if_neg (b64Char_ne_pad _ h4), ih]
    simp
    omega

/-! ### The lenient decoder agrees with the strict decoder on valid input -/

theorem base64DecodeNode_of_strict : ∀ (s : List Char) (bs : List Nat),
    b64DecodeStrict s = some bs → base64DecodeNode s = bs
  | [], bs, h => by
    simp only [b64DecodeStrict, Option.some.injEq] at h
    simp [base64DecodeNode, sextetsToBytes, ← h]
  | [c1], bs, h => by simp [b64DecodeStrict] at h
  | [c1, c2], bs, h => by simp [b64DecodeStrict] at h
  | [c1, c2, c3], bs, h => by simp [b64DecodeStrict] at h
  | c1 :: c2 :: c3 :: c4 :: rest, bs, h => by
    simp only [b64DecodeStrict] at h
    split at h
    case h_2 => exact absurd h (by simp)
    case h_1 s1 s2 hb1 hb2 =>
      split at h
      case isTrue hc3 =>
        split at h
        case isFalse => exact absurd h (by simp)
        case isTrue hc4 =>
          obtain ⟨hc4', hrest⟩ := hc4
          subst hc3; subst hc4'; subst hrest
          simp only [Option.some.injEq] at h
          simp [base64DecodeNode, List.filterMap, hb1, hb2, b64Val_pad, sextetsToBytes, ← h]
      case isFalse hc3 =>
        split at h
        case h_2 => exact absurd h (by simp)
        case h_1 s3 hb3 =>
          split at h
          case isTrue hc4 =>
            split at h
            case isFalse => exact absurd h (by simp)
            case isTrue hrest =>
              subst hc4; subst hrest
              simp only [Option.some.injEq] at h
              simp [base64DecodeNode, List.filterMap, hb1, hb2, hb3, b64Val_pad,
                sextetsToBytes, ← h]
          case isFalse hc4 =>
            split at h
            case h_2 => exact absurd h (by simp)
            case h_1 s4 hb4 =>
              split at h
              case h_2 => exact absurd h (by simp)
              case h_1 bs' hrec =>
                have ih := base64DecodeNode_of_strict rest bs' hrec
                simp only [Option.some.injEq] at h
                simp only [base64DecodeNode, List.filterMap, hb1, hb2, hb3, hb4] at ih ⊢
                simp [sextetsToBytes, ih, ← h]

/-! ### Padding and alphabet normalization -/

theorem addPadding_of_mod (s : List Char) (h : s.length % 4 = 0) : addPadding s = s := by
  have : paddingNeeded s.length = 0 := by unfold paddingNeeded; omega
  simp [addPadding, this]

theorem List.map_id_of_mem {α : Type} {f : α → α} :
    ∀ s : List α, (∀ c ∈ s, f c = c) → s.map f = s
  | [], _ => rfl
  | c :: rest, h => by
    have hc := h c (by simp)
    have ih := List.map_id_of_mem rest (fun d hd => h d (by simp [hd]))
    simp [hc, ih]

theorem restoreStandardBase64_noop (s : List Char) (h1 : '-' ∉ s) (h2 : '_' ∉ s) :
    restoreStandardBase64 s = s := by
  unfold restoreStandardBase64
  have e1 : (s.map fun c => if c = '-' then '+' else c) = s := by
    apply List.map_id_of_mem
    intro c hc
    rw [if_neg]
    intro he
    exact h1 (he ▸ hc)
  rw [e1]
  apply List.map_id_of_mem
  intro c hc
  rw [if_neg]
  intro he
  exact h2 (he ▸ hc)

theorem restoreStandardBase64_toUrlSafe (s : List Char) :
    restoreStandardBase64 (toUrlSafeBase64 s) = restoreStandardBase64 s := by
  unfold restoreStandardBase64 toUrlSafeBase64
  simp only [List.map_map]
  apply List.map_congr_left
  intro c _
  simp only [Function.comp_apply]
  by_cases h1 : c = '+'
  · simp [h1]
  · by_cases h2 : c = '/'
    · simp [h2]
    · by_cases h3 : c = '-'
      · simp [h1, h2, h3]
      · by_cases h4 : c = '_'
        · simp [h1, h2, h3, h4]
        · simp [h1, h2, h3, h4]

theorem restoreStandardBase64_shape (s : List Char) (h : ∀ c ∈ s, b64Shape c) :
    restoreStandardBase64 s = s := by
  apply restoreStandardBase64_noop
  · intro hm
    rcases h _ hm with ⟨n, hn, he⟩ | he
    · exact b64Char_ne_dash n hn he.symm
    · exact absurd he.symm (by decide)
  · intro hm
    rcases h _ hm with ⟨n, hn, he⟩ | he
    · exact b64Char_ne_underscore n hn he.symm
    · exact absurd he.symm (by decide)

/-! ### Percent-encoding -/

theorem percentDecode_cons_unreserved (c : Char) (hc : isUriUnreserved c = true)
    (t : List Char) :
    percentDecode (c :: t) =
      match percentDecode t with
      | some tail => some (c :: tail)
      | none => none := by
  have hne : c ≠ '%' := by
    intro he
    rw [he] at hc
    exact absurd hc (by decide)
  conv_lhs => rw [percentDecode.eq_def]
  simp only []
  rw [if_neg hne]

theorem b64Char_unreserved_or_special : ∀ n, n < 64 →
    isUriUnreserved (b64Char n) = true ∨ b64Char n = '+' ∨ b64Char n = '/' := by decide

theorem percentDecode_encodeChar_b64 (c : Char) (hc : b64Shape c) (t : List Char) :
    percentDecode (percentEncodeChar c ++ t) =
      match percentDecode t with
      | some tail => some (c :: tail)
      | none => none := by
  rcases hc with ⟨n, hn, he⟩ | he
  · rcases b64Char_unreserved_or_special n hn with hu | hp | hs
    · rw [he, percentEncodeChar, if_pos hu, List.cons_append, List.nil_append,
        percentDecode_cons_unreserved _ hu]
    · rw [he, hp]
      have e : percentEncodeChar '+' = ['%', '2', 'B'] := by decide
      rw [e]
      conv_lhs => rw [List.cons_append, List.cons_append, List.cons_append,
        List.nil_append, percentDecode.eq_def]
      simp [show hexVal '2' = some 2 from by decide, show hexVal 'B' = some 11 from by decide,
        show Char.ofNat 43 = '+' from by decide]
    · rw [he, hs]
      have e : percentEncodeChar '/' = ['%', '2', 'F'] := by decide
      rw [e]
      conv_lhs => rw [List.cons_append, List.cons_append, List.cons_append,
        List.nil_append, percentDecode.eq_def]
      simp [show hexVal '2' = some 2 from by decide, show hexVal 'F' = some 15 from by decide,
        show Char.ofNat 47 = '/' from by decide]
  · rw [he]
    have e : percentEncodeChar '=' = ['%', '3', 'D'] := by decide
    rw [e]
    conv_lhs => rw [List.cons_append, List.cons_append, List.cons_append,
      List.nil_append, percentDecode.eq_def]
    simp [show hexVal '3' = some 3 from by decide, show hexVal 'D' = some 13 from by decide,
      show Char.ofNat 61 = '=' from by decide]

theorem percentDecode_encode_b64 : ∀ s : List Char, (∀ c ∈ s, b64Shape c) →
    percentDecode (percentEncode s) = some s
  | [], _ => by simp [percentEncode, percentDecode]
  | c :: rest, h => by
    have ih := percentDecode_encode_b64 rest (fun d hd => h d (by simp [hd]))
    rw [percentEncode, percentDecode_encodeChar_b64 c (h c (by simp)), ih]

/-! ### Character-set facts for the concrete scenario -/

theorem percentEncodeChar_b64_allowed : ∀ n, n < 64 →
    ∀ d ∈ percentEncodeChar (b64Char n), claimC4Allowed d = true := by decide

theorem percentEncodeChar_pad_allowed :
    ∀ d ∈ percentEncodeChar '=', claimC4Allowed d = true := by decide

theorem percentEncode_allowed : ∀ s : List Char, (∀ c ∈ s, b64Shape c) →
    ∀ d ∈ percentEncode s, claimC4Allowed d = true
  | [], _ => by simp [percentEncode]
  | c :: rest, h => by
    intro d hd
    rw [percentEncode] at hd
    rcases List.mem_append.mp hd with hd | hd
    · rcases h c (by simp) with ⟨n, hn, he⟩ | he
      · exact percentEncodeChar_b64_allowed n hn d (he ▸ hd)
      · exact percentEncodeChar_pad_allowed d (he ▸ hd)
    · exact percentEncode_allowed rest (fun e he => h e (by simp [he])) d hd

/-! ### Strict decoding rejects three trailing padding characters -/

theorem b64DecodeStrict_three_pads : ∀ l : List Char, l.length % 4 = 1 →
    b64DecodeStrict (l ++ ['=', '=', '=']) = none
  | [], h => by simp at h
  | [a], _ => by
    simp only [List.cons_append, List.nil_append]
    cases hb : b64Val a <;> simp [b64DecodeStrict, hb, b64Val_pad]
  | [a, b], h => by simp at h
  | [a, b, c], h => by simp at h
  | a :: b :: c :: d :: rest, h => by
    have hr : rest.length % 4 = 1 := by simp [List.length_cons] at h; omega
    have ih := b64DecodeStrict_three_pads rest hr
    simp only [List.cons_append]
    rw [b64DecodeStrict.eq_def]
    simp only []
    split
    · split
      · rw [if_neg]
        simp
      · split
        · split
          · rw [if_neg]
            simp
          · split
            · split
              · rw [ih] at *
                simp_all
              · rfl
            · rfl
        · rfl
    · rfl

/-! ### The full transport pipeline round trip -/

theorem transport_pipeline_roundtrip (bs : List Nat) (hb : ∀ y ∈ bs, y < 256) :
    percentDecode (percentEncode
        (base64Encode bs ++ List.replicate (paddingNeeded (base64Encode bs).length) '=')) =
      some (base64Encode bs) ∧
    base64DecodeNode (restoreStandardBase64 (base64Encode bs)) = bs := by
  have hpad : paddingNeeded (base64Encode bs).length = 0 := by
    have := base64Encode_length bs
    unfold paddingNeeded
    omega
  have hshape := base64Encode_shape bs hb
  constructor
  · rw [hpad, List.replicate_zero, List.append_nil]
    exact percentDecode_encode_b64 _ hshape
  · rw [restoreStandardBase64_shape _ hshape]
    exact base64DecodeNode_of_strict _ _ (b64DecodeStrict_encode bs hb)

/-! ### Remaining helper lemmas -/

theorem percentDecode_no_escape : ∀ s : List Char, '%' ∉ s → percentDecode s = some s
  | [], _ => rfl
  | c :: rest, h => by
    have hc : c ≠ '%' := fun he => h (he ▸ List.mem_cons_self c rest)
    have ih := percentDecode_no_escape rest fun hm => h (List.mem_cons_of_mem c hm)
    conv_lhs => rw [percentDecode.eq_def]
    simp only []
    rw [if_neg hc, ih]

theorem decodeGroovyStringStaged_ne_base64 (infl : List Nat → Option (List Nat))
    (parse : List Nat → Option DebugPayload) (s : List Char) :
    decodeGroovyStringStaged infl parse s ≠ Except.error DecodeStage.base64 := by
  simp only [decodeGroovyStringStaged, decodeGroovyStringToBytes]
  cases infl (base64DecodeNode (addPadding (restoreStandardBase64 s))) with
  | none => simp
  | some out => cases hp : parse out <;> simp [hp]

/-! ### Claim theorems -/

/-- Claim C2: for every `DebugPayload` value, two invocations of the
ZIP-variant encoder `encodeContivaData` at possibly different wall-clock
times produce identical transport strings, because the archive entry
timestamp (`archiveEntryDate`) and the gzip modification-time field
(`gzipMtime`) are pinned to the fixed constant zero rather than to the
invocation time. -/
theorem c2_encode_deterministic (stringify : DebugPayload → List Nat)
    (zipArchive : List Nat → Nat → List Nat) (gzipC : List Nat → Nat → List Nat)
    (t1 t2 : Nat) (x : DebugPayload) :
    encodeContivaData stringify zipArchive gzipC t1 x =
      encodeContivaData stringify zipArchive gzipC t2 x ∧
    archiveEntryDate t1 = 0 ∧ gzipMtime t1 = 0 :=
  ⟨rfl, rfl, rfl⟩

/-- Claim C6: the padding count `paddingNeeded` computed by the
deflate-variant decoders for a string of length `L` satisfies
`(L + need) % 4 = 0` and `need ≤ 3`, and on an already correctly padded
input (length a multiple of four) the padding step `addPadding` appends
nothing. -/
theorem c6_padding_arithmetic (s : List Char) :
    (addPadding s).length % 4 = 0 ∧ paddingNeeded s.length ≤ 3 ∧
      (s.length % 4 = 0 → addPadding s = s) := by
  refine ⟨?_, ?_, addPadding_of_mod s⟩
  · simp only [addPadding, List.length_append, List.length_replicate, paddingNeeded]
    omega
  · unfold paddingNeeded
    omega

/-- Witness for C6 at the concrete already-padded input `AbCd`. -/
theorem c6_padding_arithmetic_witness :
    (addPadding "AbCd".toList).length % 4 = 0 ∧ addPadding "AbCd".toList = "AbCd".toList :=
  ⟨(c6_padding_arithmetic "AbCd".toList).1,
   (c6_padding_arithmetic "AbCd".toList).2.2 (by decide)⟩

/-- Claim C7: the alphabet normalization `restoreStandardBase64` is a no-op
on strings containing no `-` and no `_`; a string and its URL-safe rendering
normalize to the same text, so both deflate-variant decoders give the same
result on URL-safe and standard inputs; and the ZIP-variant decoder
`decodeContivaData`, whose input is already standard-alphabet base64,
passes it through normalization unchanged to the base64 decoder. -/
theorem c7_alphabet_normalization (s : List Char) (h1 : '-' ∉ s) (h2 : '_' ∉ s) :
    restoreStandardBase64 s = s ∧
    restoreStandardBase64 (toUrlSafeBase64 s) = restoreStandardBase64 s ∧
    (∀ infl, decodeGroovyStringToBytes infl (toUrlSafeBase64 s) =
      decodeGroovyStringToBytes infl s) ∧
    (∀ infl, decodeGroovyDataToBytes infl (toUrlSafeBase64 s) =
      decodeGroovyDataToBytes infl s) ∧
    (∀ gunzip s2, percentDecode s2 = some s →
      decodeContivaData gunzip s2 = gunzip (base64DecodeNode s)) := by
  have hu := restoreStandardBase64_toUrlSafe s
  have hn := restoreStandardBase64_noop s h1 h2
  refine ⟨hn, hu, ?_, ?_, ?_⟩
  · intro infl
    simp only [decodeGroovyStringToBytes, hu]
  · intro infl
    simp only [decodeGroovyDataToBytes, hu]
  · intro gunzip s2 hp
    simp only [decodeContivaData, hp, hn]

/-- Witness for C7 at a concrete standard-alphabet string. -/
theorem c7_alphabet_normalization_witness :
    restoreStandardBase64 "AQIA".toList = "AQIA".toList ∧
    restoreStandardBase64 (toUrlSafeBase64 "AQIA".toList) =
      restoreStandardBase64 "AQIA".toList :=
  ⟨(c7_alphabet_normalization "AQIA".toList (by decide) (by decide)).1,
   (c7_alphabet_normalization "AQIA".toList (by decide) (by decide)).2.1⟩

/-- Claim C8: whenever the ZIP-variant decoder `decodeContivaData` accepts a
transport string, its output is exactly the gunzipped byte stream — the raw
archive bytes — with no archive parsing applied. -/
theorem c8_decode_returns_raw_archive (gunzip : List Nat → Option (List Nat))
    (s : List Char) (out : List Nat) (h : decodeContivaData gunzip s = some out) :
    ∃ decodedUrl, percentDecode s = some decodedUrl ∧
      gunzip (base64DecodeNode (restoreStandardBase64 decodedUrl)) = some out := by
  unfold decodeContivaData at h
  cases hp : percentDecode s with
  | none => rw [hp] at h; exact absurd h (by simp)
  | some d => rw [hp] at h; exact ⟨d, rfl, h⟩

/-- Witness for C8 at the empty transport string with a trivial gunzip. -/
theorem c8_decode_returns_raw_archive_witness :
    ∃ decodedUrl, percentDecode ([] : List Char) = some decodedUrl ∧
      (fun b => some b) (base64DecodeNode (restoreStandardBase64 decodedUrl)) = some [] :=
  c8_decode_returns_raw_archive (fun b => some b) [] [] rfl

/-- Claim C5 (amended): the deflate-variant decoders perform no
percent-decoding of their own — their first step is alphabet
normalization, and percent-decoding is done, if at all, by the HTTP layer
before the decoder runs.  Both decoders agree with the spec's
percent-decode-first pipeline (`decodeGroovySpecOrdered`) on inputs that
contain no `%` escape, whose normalized, padded form is valid strict
base64, and whose decompressed size fits the Groovy implementation's
10240-byte buffer. -/
theorem c5_no_percent_step (infl : List Nat → Option (List Nat)) (s : List Char)
    (hp : '%' ∉ s) (b : List Nat)
    (hb : b64DecodeStrict (addPadding (restoreStandardBase64 s)) = some b)
    (hsize : ∀ out, infl b = some out → out.length ≤ 10240) :
    decodeGroovyStringToBytes infl s = decodeGroovySpecOrdered infl s ∧
    decodeGroovyDataToBytes infl s = decodeGroovySpecOrdered infl s := by
  have hps := percentDecode_no_escape s hp
  have hn := base64DecodeNode_of_strict _ _ hb
  constructor
  · simp only [decodeGroovyStringToBytes, decodeGroovySpecOrdered, hps, hb, hn]
  · simp only [decodeGroovyDataToBytes, decodeGroovySpecOrdered, hps, hb]
    cases hi : infl b with
    | none => rfl
    | some out => simp [List.take_of_length_le (hsize out hi)]

/-- Witness for the amended C5 at a concrete escape-free input. -/
theorem c5_no_percent_step_witness :
    (decodeGroovyStringToBytes inflId "AAAA".toList =
      decodeGroovySpecOrdered inflId "AAAA".toList) ∧
    (decodeGroovyDataToBytes inflId "AAAA".toList =
      decodeGroovySpecOrdered inflId "AAAA".toList) :=
  c5_no_percent_step inflId "AAAA".toList (by decide) [0, 0, 0] (by decide)
    (fun out h => by
      simp only [inflId, Option.some.injEq] at h
      subst h
      decide)

/-- Counterexample to C5 as stated: on the percent-encoded input `%41%41`
the implemented decoders do not percent-decode first — the JS decoder
treats the escape characters as ignorable base64 noise and yields the bytes
of `4141`, the Groovy decoder rejects them at the base64 stage — while the
spec-ordered pipeline percent-decodes to `AA` and yields the single zero
byte. -/
theorem c5_counterexample :
    decodeGroovyStringToBytes inflId c5input ≠ decodeGroovySpecOrdered inflId c5input ∧
    decodeGroovyStringToBytes inflId c5input = .ok [227, 94, 53] ∧
    decodeGroovySpecOrdered inflId c5input = .ok [0] ∧
    decodeGroovyDataToBytes inflId c5input = .error .base64 := by
  refine ⟨?_, rfl, rfl, rfl⟩
  intro h
  rw [show decodeGroovyStringToBytes inflId c5input = .ok [227, 94, 53] from rfl,
    show decodeGroovySpecOrdered inflId c5input = .ok [0] from rfl] at h
  simp at h

/-- Claim C9 (amended): on a transport string whose normalized form has
length `≡ 1 (mod 4)` (an invalid base64 length, padded with three `=`), the
Groovy deflate-variant decoder fails at the base64 stage, while the JS
deflate-variant decoder — whose lenient base64 step never fails — never
reports a base64-stage error on any input: its failure, if any, surfaces at
a later stage. -/
theorem c9_stage_behavior (infl : List Nat → Option (List Nat))
    (parse : List Nat → Option DebugPayload) (s : List Char)
    (h : (restoreStandardBase64 s).length % 4 = 1) :
    decodeGroovyDataStaged infl parse s = .error .base64 ∧
    decodeGroovyStringStaged infl parse s ≠ .error .base64 := by
  constructor
  · have hpad : paddingNeeded (restoreStandardBase64 s).length = 3 := by
      unfold paddingNeeded
      omega
    have he : addPadding (restoreStandardBase64 s) =
        restoreStandardBase64 s ++ ['=', '=', '='] := by
      rw [addPadding, hpad]
      rfl
    have hstrict := b64DecodeStrict_three_pads _ h
    simp only [decodeGroovyDataStaged, decodeGroovyDataToBytes, he, hstrict]
  · exact decodeGroovyStringStaged_ne_base64 infl parse s

/-- Witness for the amended C9 at the length-one input `A`. -/
theorem c9_stage_behavior_witness :
    decodeGroovyDataStaged inflNone parseNone ['A'] = .error .base64 ∧
    decodeGroovyStringStaged inflNone parseNone ['A'] ≠ .error .base64 :=
  c9_stage_behavior inflNone parseNone ['A'] (by decide)

/-- Counterexample to C9 as stated: the input `A` normalizes to an invalid
base64 length, yet the JS deflate-variant decoder does not yield a
base64-stage error — its lenient base64 step silently produces the empty
byte string and the failure surfaces at the inflate stage (with an inflate
primitive that rejects the empty buffer, as `zlib.inflateRawSync` does). -/
theorem c9_counterexample :
    (restoreStandardBase64 ['A']).length % 4 = 1 ∧
    base64DecodeNode (addPadding (restoreStandardBase64 ['A'])) = [] ∧
    decodeGroovyStringStaged inflNone parseNone ['A'] = .error .inflate ∧
    decodeGroovyStringStaged inflNone parseNone ['A'] ≠ .error .base64 := by
  refine ⟨rfl, rfl, rfl, ?_⟩
  intro h
  rw [show decodeGroovyStringStaged inflNone parseNone ['A'] = .error .inflate from rfl] at h
  simp at h

/-- Claim C10 (amended): the JS decoder `decodeGroovyString` and the Groovy
decoder `decodeGroovyData` compute equal results (sharing the same inflate
and JSON-parse primitives) on every input whose normalized, padded form is
valid strict base64 and whose decompressed size is at most the Groovy
implementation's 10240-byte buffer. -/
theorem c10_agree_on_valid_base64 (infl : List Nat → Option (List Nat))
    (parse : List Nat → Option DebugPayload) (s : List Char) (b : List Nat)
    (hb : b64DecodeStrict (addPadding (restoreStandardBase64 s)) = some b)
    (hsize : ∀ out, infl b = some out → out.length ≤ 10240) :
    decodeGroovyStringStaged infl parse s = decodeGroovyDataStaged infl parse s := by
  have hn := base64DecodeNode_of_strict _ _ hb
  simp only [decodeGroovyStringStaged, decodeGroovyDataStaged, decodeGroovyStringToBytes,
    decodeGroovyDataToBytes, hb, hn]
  cases hi : infl b with
  | none => rfl
  | some out => simp [List.take_of_length_le (hsize out hi)]

/-- Witness for the amended C10 at a concrete valid-base64 input. -/
theorem c10_agree_on_valid_base64_witness :
    decodeGroovyStringStaged inflNone parseNone "AAAA".toList =
      decodeGroovyDataStaged inflNone parseNone "AAAA".toList :=
  c10_agree_on_valid_base64 inflNone parseNone "AAAA".toList [0, 0, 0] (by decide)
    (fun out h => by simp [inflNone] at h)

/-- Counterexample to C10 as stated: on the input `$AQIA/f97fQ==$$$` —
whose embedded deflate stream decompresses to two bytes, well under 10240 —
the two implementations disagree: the JS decoder's lenient base64 step
ignores the `$` characters and decoding succeeds, while the Groovy
decoder's strict base64 step rejects the input.  The inflate and parse
primitives used agree with `zlib.inflateRaw` and `JSON.parse` on the bytes
this input produces. -/
theorem c10_counterexample :
    decodeGroovyStringStaged inflC10 parseC10 c10input = .ok emptyPayload ∧
    decodeGroovyDataStaged inflC10 parseC10 c10input = .error .base64 ∧
    bracesBytes.length ≤ 10240 :=
  ⟨rfl, rfl, by decide⟩

/-- Claim C3: the Groovy deflate-variant decoder `decodeGroovyData` inflates
into a fixed 10240-byte buffer; on an input whose decompressed size exceeds
that ceiling it does not report any size error — no `PayloadTooLarge` stage
even exists in its failure modes — but silently truncates the decompressed
output to its first 10240 bytes and proceeds to parse the truncated text,
returning whatever that yields. -/
theorem c3_fixed_buffer_truncates (infl : List Nat → Option (List Nat))
    (parse : List Nat → Option DebugPayload) (s : List Char) (b out : List Nat)
    (y : DebugPayload)
    (hb : b64DecodeStrict (addPadding (restoreStandardBase64 s)) = some b)
    (hinfl : infl b = some out) (hbig : 10240 < out.length)
    (hparse : parse (out.take 10240) = some y) :
    decodeGroovyDataStaged infl parse s = .ok y ∧ out.take 10240 ≠ out := by
  constructor
  · simp only [decodeGroovyDataStaged, decodeGroovyDataToBytes, hb, hinfl, hparse]
  · intro he
    have hl := congrArg List.length he
    simp only [List.length_take] at hl
    omega

/-- Witness for C3: a transport string whose deflate stream decompresses to
10241 bytes is silently truncated and successfully parsed. -/
theorem c3_fixed_buffer_truncates_witness :
    decodeGroovyDataStaged inflBig parseTrunc c3input = .ok emptyPayload ∧
    (List.replicate 10241 (48 : Nat)).take 10240 ≠ List.replicate 10241 (48 : Nat) := by
  have hmin : min 10240 10241 = 10240 := by omega
  have h1 : inflBig [0, 0, 0] = some (List.replicate 10241 48) := by
    unfold inflBig
    rw [if_pos rfl]
  have h2 : (10240 : Nat) < (List.replicate 10241 (48 : Nat)).length := by
    rw [List.length_replicate]
    omega
  have h3 : parseTrunc ((List.replicate 10241 (48 : Nat)).take 10240) = some emptyPayload := by
    rw [List.take_replicate, hmin]
    unfold parseTrunc
    rw [if_pos rfl]
  exact c3_fixed_buffer_truncates inflBig parseTrunc c3input [0, 0, 0]
    (List.replicate 10241 48) emptyPayload (by decide) h1 h2 h3

/-! ### The ZIP-variant encode/decode chain -/

theorem encodeContivaData_decodes (stringify : DebugPayload → List Nat)
    (zipArchive : List Nat → Nat → List Nat) (gzipC : List Nat → Nat → List Nat)
    (now : Nat) (x : DebugPayload)
    (hjson : ∀ y ∈ stringify x, y < 256)
    (hzip : ∀ b t, (∀ y ∈ b, y < 256) → ∀ y ∈ zipArchive b t, y < 256)
    (hgz : ∀ b t, (∀ y ∈ b, y < 256) → ∀ y ∈ gzipC b t, y < 256) :
    percentDecode (encodeContivaData stringify zipArchive gzipC now x) =
      some (base64Encode
        (gzipC (zipArchive (stringify x) (archiveEntryDate now)) (gzipMtime now))) ∧
    base64DecodeNode (restoreStandardBase64 (base64Encode
        (gzipC (zipArchive (stringify x) (archiveEntryDate now)) (gzipMtime now)))) =
      gzipC (zipArchive (stringify x) (archiveEntryDate now)) (gzipMtime now) := by
  have hb : ∀ y ∈ gzipC (zipArchive (stringify x) (archiveEntryDate now)) (gzipMtime now),
      y < 256 := hgz _ _ (hzip _ _ hjson)
  have h := transport_pipeline_roundtrip _ hb
  exact ⟨h.1, h.2⟩

theorem decodeContivaData_of_encode (stringify : DebugPayload → List Nat)
    (zipArchive : List Nat → Nat → List Nat) (gzipC : List Nat → Nat → List Nat)
    (gunzip : List Nat → Option (List Nat)) (now : Nat) (x : DebugPayload)
    (hjson : ∀ y ∈ stringify x, y < 256)
    (hzip : ∀ b t, (∀ y ∈ b, y < 256) → ∀ y ∈ zipArchive b t, y < 256)
    (hgz : ∀ b t, (∀ y ∈ b, y < 256) → ∀ y ∈ gzipC b t, y < 256)
    (hinv : ∀ b t, gunzip (gzipC b t) = some b) :
    decodeContivaData gunzip (encodeContivaData stringify zipArchive gzipC now x) =
      some (zipArchive (stringify x) (archiveEntryDate now)) := by
  obtain ⟨h1, h2⟩ := encodeContivaData_decodes stringify zipArchive gzipC now x hjson hzip hgz
  simp only [decodeContivaData, h1, h2]
  exact hinv _ _

/-- Claim C1: for every `DebugPayload` value `x`, decoding the ZIP-variant
transport string produced by encoding `x` (`decodeContivaData` applied to
`encodeContivaData`) yields raw archive bytes whose embedded `data.json`
content equals the JSON serialization of `x` — stated for any JSON
serializer, any archive writer paired with an entry extractor that recovers
the stored content, and any byte-valued gzip pair with gunzip inverting
gzip. -/
theorem c1_zip_roundtrip (stringify : DebugPayload → List Nat)
    (zipArchive : List Nat → Nat → List Nat) (gzipC : List Nat → Nat → List Nat)
    (gunzip : List Nat → Option (List Nat)) (extractDataJson : List Nat → Option (List Nat))
    (now : Nat)
    (hjson : ∀ x, ∀ y ∈ stringify x, y < 256)
    (hzip : ∀ b t, (∀ y ∈ b, y < 256) → ∀ y ∈ zipArchive b t, y < 256)
    (hgz : ∀ b t, (∀ y ∈ b, y < 256) → ∀ y ∈ gzipC b t, y < 256)
    (hinv : ∀ b t, gunzip (gzipC b t) = some b)
    (hext : ∀ b t, extractDataJson (zipArchive b t) = some b)
    (x : DebugPayload) :
    ∃ archive, decodeContivaData gunzip
        (encodeContivaData stringify zipArchive gzipC now x) = some archive ∧
      extractDataJson archive = some (stringify x) :=
  ⟨zipArchive (stringify x) (archiveEntryDate now),
   decodeContivaData_of_encode stringify zipArchive gzipC gunzip now x (hjson x) hzip hgz hinv,
   hext _ _⟩

/-- Witness for C1 with identity-like primitives and the example payload. -/
theorem c1_zip_roundtrip_witness :
    ∃ archive, decodeContivaData (fun b => some b)
        (encodeContivaData (fun _ => [123, 125]) (fun b _ => b) (fun b _ => b) 0
          contivaExample) = some archive ∧
      (fun b => some b) archive = some ((fun _ : DebugPayload => [123, 125]) contivaExample) :=
  c1_zip_roundtrip (fun _ => [123, 125]) (fun b _ => b) (fun b _ => b)
    (fun b => some b) (fun b => some b) 0
    (by intro x y hy; simp at hy; omega) (fun _ _ hb => hb) (fun _ _ hb => hb)
    (fun _ _ => rfl) (fun _ _ => rfl) contivaExample

/-- Claim C4: encoding the concrete example payload with the ZIP variant
produces a string containing only characters from the class
`[A-Za-z0-9%.\x2d_~]`; percent-decoding followed by alphabet restoration and
base64 decoding yields the gzip byte stream, which begins with the gzip
magic bytes `1f 8b` whenever the gzip primitive emits its container header;
and gunzipping (the full `decodeContivaData`) yields bytes beginning with
the ZIP local-file-header magic `50 4b 03 04` whenever the archive writer
emits that header. -/
theorem c4_concrete_scenario (stringify : DebugPayload → List Nat)
    (zipArchive : List Nat → Nat → List Nat) (gzipC : List Nat → Nat → List Nat)
    (gunzip : List Nat → Option (List Nat)) (now : Nat)
    (hjson : ∀ x, ∀ y ∈ stringify x, y < 256)
    (hzip : ∀ b t, (∀ y ∈ b, y < 256) → ∀ y ∈ zipArchive b t, y < 256)
    (hgz : ∀ b t, (∀ y ∈ b, y < 256) → ∀ y ∈ gzipC b t, y < 256)
    (hgzmagic : ∀ b t, (gzipC b t).take 2 = [31, 139])
    (hzipmagic : ∀ b t, (zipArchive b t).take 4 = [80, 75, 3, 4])
    (hinv : ∀ b t, gunzip (gzipC b t) = some b) :
    (∀ c ∈ encodeContivaData stringify zipArchive gzipC now contivaExample,
        claimC4Allowed c = true) ∧
    (∃ d, percentDecode (encodeContivaData stringify zipArchive gzipC now contivaExample) =
        some d ∧ (base64DecodeNode (restoreStandardBase64 d)).take 2 = [31, 139]) ∧
    (∃ z, decodeContivaData gunzip
        (encodeContivaData stringify zipArchive gzipC now contivaExample) = some z ∧
      z.take 4 = [80, 75, 3, 4]) := by
  have hb : ∀ y ∈ gzipC (zipArchive (stringify contivaExample) (archiveEntryDate now))
      (gzipMtime now), y < 256 := hgz _ _ (hzip _ _ (hjson contivaExample))
  obtain ⟨h1, h2⟩ := encodeContivaData_decodes stringify zipArchive gzipC now contivaExample
    (hjson contivaExample) hzip hgz
  refine ⟨?_, ⟨_, h1, by rw [h2]; exact hgzmagic _ _⟩,
    ⟨_, decodeContivaData_of_encode stringify zipArchive gzipC gunzip now contivaExample
      (hjson contivaExample) hzip hgz hinv, hzipmagic _ _⟩⟩
  intro c hc
  rw [show encodeContivaData stringify zipArchive gzipC now contivaExample =
      percentEncode (base64Encode (gzipC (zipArchive (stringify contivaExample)
          (archiveEntryDate now)) (gzipMtime now)) ++
        List.replicate (paddingNeeded (base64Encode (gzipC (zipArchive
          (stringify contivaExample) (archiveEntryDate now)) (gzipMtime now))).length) '=')
    from rfl] at hc
  refine percentEncode_allowed _ ?_ c hc
  intro d hd
  rcases List.mem_append.mp hd with hd | hd
  · exact base64Encode_shape _ hb d hd
  · exact Or.inr (List.eq_of_mem_replicate hd)

/-- Witness for C4 with primitives that emit the gzip and ZIP headers. -/
theorem c4_concrete_scenario_witness :
    (∀ c ∈ encodeContivaData (fun _ => [123, 125])
        (fun b _ => 80 :: 75 :: 3 :: 4 :: b) (fun b _ => 31 :: 139 :: b) 0 contivaExample,
      claimC4Allowed c = true) ∧
    (∃ d, percentDecode (encodeContivaData (fun _ => [123, 125])
        (fun b _ => 80 :: 75 :: 3 :: 4 :: b) (fun b _ => 31 :: 139 :: b) 0 contivaExample) =
        some d ∧ (base64DecodeNode (restoreStandardBase64 d)).take 2 = [31, 139]) ∧
    (∃ z, decodeContivaData (fun b => if b.take 2 = [31, 139] then some (b.drop 2) else none)
        (encodeContivaData (fun _ => [123, 125])
          (fun b _ => 80 :: 75 :: 3 :: 4 :: b) (fun b _ => 31 :: 139 :: b) 0 contivaExample) =
        some z ∧ z.take 4 = [80, 75, 3, 4]) :=
  c4_concrete_scenario (fun _ => [123, 125]) (fun b _ => 80 :: 75 :: 3 :: 4 :: b)
    (fun b _ => 31 :: 139 :: b)
    (fun b => if b.take 2 = [31, 139] then some (b.drop 2) else none) 0
    (by intro x y hy; simp at hy; omega)
    (by intro b t hb y hy; simp at hy; rcases hy with rfl | rfl | rfl | rfl | hy
        · omega
        · omega
        · omega
        · omega
        · exact hb y hy)
    (by intro b t hb y hy; simp at hy; rcases hy with rfl | rfl | hy
        · omega
        · omega
        · exact hb y hy)
    (fun b t => rfl) (fun b t => rfl)
    (fun b t => by simp)
